import Mathlib

set_option maxRecDepth 100000

/-!
Verification of the Heart Beat latency log analyzer
(`scripts/analyze_latency.py`).

The Python program is shallowly embedded as executable Lean functions:

* Python `float` values are modelled as exact rationals `ℚ`; every numeric
  literal the program compares against (100.0, 90.0, 80.0, 150.0, 1.2, 0.5)
  is decimal and all comparisons in the claims are strict, so the rational
  model is faithful for the properties stated here.
* Python `int` values produced by the extractor are non-negative and are
  modelled as `ℕ`.
* The regular-expression extractor (`re.findall` with a fixed pattern,
  `MULTILINE | DOTALL`) is hand-compiled into a deterministic scanner over
  `List Char`.  The pattern is a chain of lazy gaps `.*?` followed by
  anchored pieces whose sub-quantifiers act over pairwise disjoint
  character classes, so a first-success scan per chunk realises the
  backtracking semantics exactly; choices inside a whitespace run `\s*\n`
  never change captures or the match end.  Details at each definition.
* Fallible Python code (a `float(...)` call that can raise `ValueError`)
  is modelled with `Option`; `none` models an uncaught exception.
-/

/-! ## Generic string machinery -/

/-- `leadsWith p l = true` iff the char list `p` is an initial segment of `l`. -/
def leadsWith : List Char → List Char → Bool
  | [], _ => true
  | _ :: _, [] => false
  | p :: ps, c :: cs => p == c && leadsWith ps cs

/-- `containsSub pat l = true` iff `pat` occurs contiguously inside `l`;
models Python's `pat in s` substring test. -/
def containsSub (pat : List Char) : List Char → Bool
  | [] => leadsWith pat []
  | c :: rest => leadsWith pat (c :: rest) || containsSub pat rest

/-- Python's `pat in s` on strings. -/
def strContains (s pat : String) : Bool := containsSub pat.data s.data

/-- Python's `"\n".join(lines)`. -/
def joinLines : List String → String
  | [] => ""
  | l :: rest => rest.foldl (fun a b => a ++ "\n" ++ b) l

/-- Pad a numeral string on the left with zeros to width `w`
(used for the fractional part of fixed-point formatting). -/
def padZeros (w : Nat) (s : String) : String :=
  String.mk (List.replicate (w - s.data.length) '0') ++ s

/-- Python format `{x:>w}`: left-pad with spaces to width `w`. -/
def padLeft (w : Nat) (s : String) : String :=
  String.mk (List.replicate (w - s.data.length) ' ') ++ s

/-- Python format `{x:<w}`: right-pad with spaces to width `w`. -/
def padRight (w : Nat) (s : String) : String :=
  s ++ String.mk (List.replicate (w - s.data.length) ' ')

/-- Insert `,` after every third char of a reversed digit list
(helper for Python's `{n:,}` thousands grouping). -/
def groupRev : List Char → List Char
  | [] => []
  | [a] => [a]
  | [a, b] => [a, b]
  | [a, b, c] => [a, b, c]
  | a :: b :: c :: rest => a :: b :: c :: ',' :: groupRev rest

/-- Python's `{n:,}` format for a non-negative integer. -/
def commaGroup (n : Nat) : String :=
  String.mk (groupRev (Nat.repr n).data.reverse).reverse

/-- `round (q * 10^k)`: the scaled integer behind `{q:.kf}` formatting.
(Python rounds the underlying double half-to-even; the tie-break never
matters for any value reached in this development.) -/
def scaledRound (k : Nat) (q : ℚ) : ℤ := round (q * (10 : ℚ) ^ k)

/-- Render a scaled integer `m` as a fixed-point numeral with `k` decimals. -/
def fmtScaled (k : Nat) (m : ℤ) : String :=
  (if m < 0 then "-" else "")
    ++ Nat.repr (m.natAbs / 10 ^ k)
    ++ (if k = 0 then "" else "." ++ padZeros k (Nat.repr (m.natAbs % 10 ^ k)))

/-- Python's fixed-point float format `{q:.kf}`. -/
def fmtFixed (k : Nat) (q : ℚ) : String := fmtScaled k (scaledRound k q)

/-- Smallest `k ≤ 39` with `den ∣ 10^k`, if any: the decimal exponent of a
denominator (every float produced by the extractor has such a denominator). -/
def decPow (den : Nat) : Option Nat := (List.range 40).find? (fun k => den ∣ 10 ^ k)

/-- Python's `str(float)` (shortest decimal form) for rationals with a
decimal denominator; integral values get a trailing `.0` exactly as Python
prints them.  Non-decimal denominators (unreachable from the extractor)
fall back to a fraction rendering. -/
def ratStr (q : ℚ) : String :=
  match decPow q.den with
  | some 0 => q.num.repr ++ ".0"
  | some k =>
      let m := q.num.natAbs * 10 ^ k / q.den
      (if q.num < 0 then "-" else "")
        ++ Nat.repr (m / 10 ^ k) ++ "." ++ padZeros k (Nat.repr (m % 10 ^ k))
  | none => q.num.repr ++ "/" ++ q.den.repr

/-- Python's `str(bool)`. -/
def pyBoolStr (b : Bool) : String := if b then "True" else "False"

/-! ## Data model (`LatencySample` dataclass) -/

/-- One parsed latency-statistics block (`@dataclass LatencySample`). -/
structure LatencySample where
  timestamp : String
  sample_count : Nat
  total_samples : Nat
  p50_ms : ℚ
  p95_ms : ℚ
  p99_ms : ℚ
  meets_requirement : Bool
deriving DecidableEq, Repr

/-! ## Statistics aggregation (from `generate_report`, lines 97–111) -/

/-- Python `max(values)` on a non-empty list (the empty case is unreachable:
`generate_report` returns early when there are no samples). -/
def pyMax : List ℚ → ℚ
  | [] => 0
  | x :: xs => xs.foldl max x

/-- Python `min(values)` on a non-empty list. -/
def pyMin : List ℚ → ℚ
  | [] => 0
  | x :: xs => xs.foldl min x

/-- Python `sum(values) / len(values)`. -/
def avgList (l : List ℚ) : ℚ := l.sum / l.length

def p50_values (samples : List LatencySample) : List ℚ := samples.map (·.p50_ms)
def p95_values (samples : List LatencySample) : List ℚ := samples.map (·.p95_ms)
def p99_values (samples : List LatencySample) : List ℚ := samples.map (·.p99_ms)

/-- `total_samples = self.samples[-1].total_samples` (line 101); the `0`
default is unreachable because the caller guards on non-emptiness. -/
def total_samples_agg (samples : List LatencySample) : Nat :=
  match samples.getLast? with
  | some s => s.total_samples
  | none => 0

/-- `failing_windows = sum(1 for s in self.samples if not s.meets_requirement)`. -/
def failing_windows (samples : List LatencySample) : Nat :=
  (samples.filter (fun s => !s.meets_requirement)).length

def maxP95 (samples : List LatencySample) : ℚ := pyMax (p95_values samples)
def minP95 (samples : List LatencySample) : ℚ := pyMin (p95_values samples)
def avgP95 (samples : List LatencySample) : ℚ := avgList (p95_values samples)

/-- `duration_minutes = len(self.samples) * 0.5` (line 108). -/
def duration_minutes (samples : List LatencySample) : ℚ :=
  (samples.length : ℚ) * 0.5

/-- `sample_rate = total_samples / (duration_minutes * 60) if duration_minutes > 0 else 0`. -/
def sample_rate (samples : List LatencySample) : ℚ :=
  if duration_minutes samples > 0 then
    (total_samples_agg samples : ℚ) / (duration_minutes samples * 60)
  else 0

/-! ## Validation gate (lines 114–119) -/

/-- The overall validation decision:
`failing_windows == 0 and max_p95 < 100.0 and avg_p95 < 100.0 and total_samples >= 3600`. -/
def validation_passed (samples : List LatencySample) : Bool :=
  decide (failing_windows samples = 0)
    && decide (maxP95 samples < 100)
    && decide (avgP95 samples < 100)
    && decide (3600 ≤ total_samples_agg samples)

/-! ## Warning generation (lines 159–182) -/

/-- Lines 160–163: hard "exceeded" warning if `max_p95 > 100.0`, else soft
"close to threshold" warning if `max_p95 > 90.0` (mutually exclusive). -/
def p95MaxWarning (max_p95 : ℚ) : List String :=
  if max_p95 > 100 then
    ["⚠️  P95 exceeded 100ms (max: " ++ fmtFixed 2 max_p95 ++ "ms)"]
  else if max_p95 > 90 then
    ["⚠️  P95 close to threshold (max: " ++ fmtFixed 2 max_p95 ++ "ms)"]
  else []

/-- Python `l[i:]` for an integer index `i`: a negative index counts from
the end; the start position is clamped into `[0, len(l)]` (both `Int.toNat`
on a negative value and `List.drop` past the end clamp exactly as Python
does). -/
def pySliceFrom {α : Type} (i : ℤ) (l : List α) : List α :=
  if i < 0 then l.drop ((l.length : ℤ) + i).toNat else l.drop i.toNat

/-- Lines 177–182: the increasing-trend warning, only computed when the
P95 sequence has at least 5 entries.  `early_avg` is the mean of the first
`n // 3` values.  The late slice reproduces the source exactly:
`p95_values[-len(p95_values)//3:]` parses as `p95_values[((-n)//3):]`
(unary minus binds tighter than `//`), and Python's floor division gives
`(-n)//3 = -⌈n/3⌉` (`Int.fdiv` is floor division), so the slice holds the
last `⌈n/3⌉` values while the divisor is `n // 3 = ⌊n/3⌋`; for
`n % 3 ≠ 0` the computed `late_avg` is therefore not the arithmetic mean
of any slice. -/
def trend_warning (ps : List ℚ) : List String :=
  if 5 ≤ ps.length then
    let third := ps.length / 3
    let early_avg := (ps.take third).sum / (third : ℚ)
    let late_avg := (pySliceFrom (Int.fdiv (-(ps.length : ℤ)) 3) ps).sum / (third : ℚ)
    if late_avg > early_avg * 1.2 then
      ["⚠️  P95 increasing over time (" ++ fmtFixed 1 early_avg ++ "ms → "
        ++ fmtFixed 1 late_avg ++ "ms)"]
    else []
  else []

/-- The full ordered warning list of `generate_report` (lines 159–182). -/
def warningsList (samples : List LatencySample) : List String :=
  p95MaxWarning (maxP95 samples)
    ++ (if avgP95 samples > 80 then
          ["⚠️  Average P95 high (" ++ fmtFixed 2 (avgP95 samples) ++ "ms)"] else [])
    ++ (if pyMax (p99_values samples) > 150 then
          ["⚠️  P99 shows outliers (max: " ++ fmtFixed 2 (pyMax (p99_values samples)) ++ "ms)"]
        else [])
    ++ (if total_samples_agg samples < 3600 then
          ["⚠️  Insufficient samples (" ++ commaGroup (total_samples_agg samples) ++ " < 3,600)"]
        else [])
    ++ (if duration_minutes samples < 30 then
          ["⚠️  Session too short (" ++ fmtFixed 1 (duration_minutes samples) ++ " < 30 minutes)"]
        else [])
    ++ trend_warning (p95_values samples)

/-! ## Report rendering (lines 122–212) -/

def bar60 : String := String.mk (List.replicate 60 '=')
def dash70 : String := String.mk (List.replicate 70 '-')

/-- Report lines 122–133: session information. -/
def sessionLines (samples : List LatencySample) (fname : String) : List String :=
  [bar60, "LATENCY VALIDATION REPORT", bar60, "",
   "Session Information:",
   "  Log File: " ++ fname,
   "  Log Entries: " ++ Nat.repr samples.length,
   "  Estimated Duration: " ++ fmtFixed 1 (duration_minutes samples) ++ " minutes",
   "  Total Samples: " ++ commaGroup (total_samples_agg samples),
   "  Sample Rate: " ++ fmtFixed 2 (sample_rate samples) ++ " Hz",
   ""]

/-- Report lines 134–148: per-percentile statistics. -/
def statLines (samples : List LatencySample) : List String :=
  ["Latency Statistics (P95):",
   "  Average: " ++ fmtFixed 2 (avgP95 samples) ++ " ms",
   "  Minimum: " ++ fmtFixed 2 (minP95 samples) ++ " ms",
   "  Maximum: " ++ fmtFixed 2 (maxP95 samples) ++ " ms",
   "",
   "Latency Statistics (P50):",
   "  Average: " ++ fmtFixed 2 (avgList (p50_values samples)) ++ " ms",
   "  Minimum: " ++ fmtFixed 2 (pyMin (p50_values samples)) ++ " ms",
   "  Maximum: " ++ fmtFixed 2 (pyMax (p50_values samples)) ++ " ms",
   "",
   "Latency Statistics (P99):",
   "  Average: " ++ fmtFixed 2 (avgList (p99_values samples)) ++ " ms",
   "  Minimum: " ++ fmtFixed 2 (pyMin (p99_values samples)) ++ " ms",
   "  Maximum: " ++ fmtFixed 2 (pyMax (p99_values samples)) ++ " ms",
   ""]

/-- Report lines 149–156: the validation-results section. -/
def validationLines (samples : List LatencySample) : List String :=
  ["Validation Results:",
   "  P95 < 100ms Requirement: "
     ++ (if maxP95 samples < 100 then "✓ PASS" else "❌ FAIL"),
   "  Failing Windows: " ++ Nat.repr (failing_windows samples) ++ " / "
     ++ Nat.repr samples.length,
   "  Minimum Sample Count: "
     ++ (if 3600 ≤ total_samples_agg samples then "✓ PASS" else "❌ FAIL")
     ++ " (" ++ commaGroup (total_samples_agg samples) ++ " / 3,600)",
   "",
   "Overall Validation: "
     ++ (if validation_passed samples then "✓ PASS" else "❌ FAIL"),
   ""]

/-- Warnings section (lines 184–188): present only when a warning fired. -/
def warnSection (samples : List LatencySample) : List String :=
  match warningsList samples with
  | [] => []
  | ws => "Warnings:" :: ws.map (fun w => "  " ++ w) ++ [""]

/-- One row of the detailed breakdown table (lines 201–207). -/
def detailRow (s : LatencySample) : String :=
  padRight 20 s.timestamp ++ " " ++ padLeft 8 (Nat.repr s.sample_count) ++ " "
    ++ padLeft 7 (fmtFixed 2 s.p50_ms) ++ "ms " ++ padLeft 7 (fmtFixed 2 s.p95_ms) ++ "ms "
    ++ padLeft 7 (fmtFixed 2 s.p99_ms) ++ "ms "
    ++ padLeft 6 (if s.meets_requirement then "✓" else "❌")

/-- Detailed breakdown section (lines 191–208). -/
def detailSection (samples : List LatencySample) (detailed : Bool) : List String :=
  if detailed && samples.length > 0 then
    [bar60, "DETAILED BREAKDOWN", bar60, "",
     padRight 20 "Timestamp" ++ " " ++ padLeft 8 "Samples" ++ " " ++ padLeft 8 "P50"
       ++ " " ++ padLeft 8 "P95" ++ " " ++ padLeft 8 "P99" ++ " " ++ padLeft 6 "Status",
     dash70]
      ++ samples.map detailRow ++ [""]
  else []

/-- The complete `report_lines` list of `generate_report` for non-empty
samples (the Python list literal of lines 122–156 followed by the
conditional sections and the closing bar of line 210). -/
def buildReportLines (samples : List LatencySample) (fname : String)
    (detailed : Bool) : List String :=
  sessionLines samples fname ++ statLines samples ++ validationLines samples
    ++ warnSection samples ++ detailSection samples detailed ++ [bar60]

/-- `generate_report` (lines 91–212): early return on no samples, else the
joined report lines. -/
def generate_report (samples : List LatencySample) (fname : String)
    (detailed : Bool) : String :=
  if samples.isEmpty then "No latency samples found in log file."
  else joinLines (buildReportLines samples fname detailed)

/-! ## CSV export (`export_csv`, lines 214–237)

The destination file is modelled as the accumulated written string; the
"cannot open destination" failure is an I/O condition outside the
embedding.  `none` models the `return False` on the empty sample list. -/

def csvHeaderLine : String :=
  "timestamp,sample_count,total_samples,p50_ms,p95_ms,p99_ms,meets_requirement"

/-- One data row (lines 227–231): f-string with `str()` rendering of each
field, booleans as `True`/`False`, terminated by a newline. -/
def csvRow (s : LatencySample) : String :=
  s.timestamp ++ "," ++ Nat.repr s.sample_count ++ "," ++ Nat.repr s.total_samples
    ++ "," ++ ratStr s.p50_ms ++ "," ++ ratStr s.p95_ms ++ "," ++ ratStr s.p99_ms
    ++ "," ++ pyBoolStr s.meets_requirement ++ "\n"

/-- `export_csv`: header write followed by the per-sample write loop. -/
def export_csv (samples : List LatencySample) : Option String :=
  if samples.isEmpty then none
  else some (samples.foldl (fun acc s => acc ++ csvRow s) (csvHeaderLine ++ "\n"))

/-! ## Spec-side definition for the trend claim -/

/-- The arithmetic mean, as the spec words it ("mean of the first third",
"mean of the last third"); compared against the source computation in C3. -/
def meanQ (l : List ℚ) : ℚ := l.sum / (l.length : ℚ)

/-! ## Log extraction (`parse_logs`, lines 42–89)

The pattern (flags `MULTILINE | DOTALL`):

    (\d{2}-\d{2}\s+\d{2}:\d{2}:\d{2}\.\d+).*?\[LatencyService\] Latency Statistics:\s*\n
    .*?Samples:\s*(\d+)\s*\(Total:\s*(\d+)\)\s*\n
    .*?P50:\s*([\d.]+)\s*ms\s*\n
    .*?P95:\s*([\d.]+)\s*ms\s*\n
    .*?P99:\s*([\d.]+)\s*ms\s*\n
    .*?(✓|⚠️|WARNING)

Every greedy sub-quantifier (`\s+`, `\d+`, `[\d.]+`, `\s*` before a
literal) ranges over a character class disjoint from the character that
must follow it, so its extent is forced and needs no backtracking.  Two
choice points remain and both are immaterial:

* `\s*\n`: which newline of a whitespace run is consumed.  All choices
  leave the same captures and the same match end, and the text skipped
  between two choices is pure whitespace, which cannot contain the start
  of any later anchor; we deterministically take the first newline.
* a lazy gap `.*?` before an anchored chunk: the regex tries anchor
  occurrences left to right, backtracking to the next occurrence when the
  rest of the chunk fails; `scanFor` below does exactly this.  Failure of
  a whole later chunk cannot be repaired by re-choosing an earlier chunk,
  because each chunk already searches the entire remaining suffix and a
  later restart point only shrinks that suffix.
-/

/-- Python's `\s` (on the whitespace characters this log format produces). -/
def isWs (c : Char) : Bool := c.isWhitespace

/-- `Option.bind` written as a plain recursor, used to sequence parsers
(identical to `do`-notation, but with a transparent equation lemma). -/
def obind {α β : Type} : Option α → (α → Option β) → Option β
  | none, _ => none
  | some a, f => f a

/-- Match one exact character. -/
def pChar (c : Char) : List Char → Option (List Char)
  | [] => none
  | x :: rest => if x = c then some rest else none

/-- Match an exact literal. -/
def pLit : List Char → List Char → Option (List Char)
  | [], s => some s
  | _ :: _, [] => none
  | l :: ls, x :: rest => if x = l then pLit ls rest else none

/-- Exactly two digits (`\d{2}`), captured. -/
def pTwoDigits : List Char → Option ((Char × Char) × List Char)
  | a :: b :: rest => if a.isDigit && b.isDigit then some ((a, b), rest) else none
  | _ => none

/-- One or more digits (`\d+`), greedy, captured. -/
def pDigits1 (s : List Char) : Option (List Char × List Char) :=
  if (s.takeWhile (·.isDigit)).isEmpty then none
  else some (s.takeWhile (·.isDigit), s.dropWhile (·.isDigit))

/-- One or more digits and dots (`[\d.]+`), greedy, captured. -/
def pFloatTokChars (s : List Char) : Option (List Char × List Char) :=
  if (s.takeWhile (fun c => c.isDigit || c = '.')).isEmpty then none
  else some (s.takeWhile (fun c => c.isDigit || c = '.'),
             s.dropWhile (fun c => c.isDigit || c = '.'))

/-- One or more whitespace characters (`\s+`), greedy, captured. -/
def pWs1 (s : List Char) : Option (List Char × List Char) :=
  if (s.takeWhile isWs).isEmpty then none
  else some (s.takeWhile isWs, s.dropWhile isWs)

/-- Zero or more whitespace characters (`\s*`) before a non-whitespace
anchor: greedy and deterministic. -/
def pWs (s : List Char) : List Char := s.dropWhile isWs

/-- `\s*\n`: skip non-newline whitespace, then require a newline.  (See the
header comment: the choice of newline within a whitespace run is
immaterial, so the first one is taken.) -/
def pWsNl (s : List Char) : Option (List Char) :=
  pChar '\n' (s.dropWhile (fun c => isWs c && c ≠ '\n'))

/-- The timestamp `(\d{2}-\d{2}\s+\d{2}:\d{2}:\d{2}\.\d+)`, captured whole
(group 1). -/
def pTimestamp (s : List Char) : Option (List Char × List Char) :=
  obind (pTwoDigits s) fun d1 =>
  obind (pChar '-' d1.2) fun s1 =>
  obind (pTwoDigits s1) fun d2 =>
  obind (pWs1 d2.2) fun w =>
  obind (pTwoDigits w.2) fun d3 =>
  obind (pChar ':' d3.2) fun s2 =>
  obind (pTwoDigits s2) fun d4 =>
  obind (pChar ':' d4.2) fun s3 =>
  obind (pTwoDigits s3) fun d5 =>
  obind (pChar '.' d5.2) fun s4 =>
  obind (pDigits1 s4) fun ds =>
  some ([d1.1.1, d1.1.2, '-', d2.1.1, d2.1.2] ++ w.1
      ++ [d3.1.1, d3.1.2, ':', d4.1.1, d4.1.2, ':', d5.1.1, d5.1.2, '.'] ++ ds.1, ds.2)

/-- Realise a lazy gap `.*?step`: try `step` at every suffix position, left
to right, returning the first success. -/
def scanFor {α : Type} (step : List Char → Option (α × List Char)) :
    List Char → Option (α × List Char)
  | [] => step []
  | c :: rest =>
    match step (c :: rest) with
    | some r => some r
    | none => scanFor step rest

/-- Anchored chunk `\[LatencyService\] Latency Statistics:\s*\n`. -/
def stepHeader (s : List Char) : Option (Unit × List Char) :=
  obind (pLit "[LatencyService] Latency Statistics:".data s) fun s1 =>
  obind (pWsNl s1) fun s2 =>
  some ((), s2)

/-- Anchored chunk `Samples:\s*(\d+)\s*\(Total:\s*(\d+)\)\s*\n`. -/
def stepSamples (s : List Char) : Option ((List Char × List Char) × List Char) :=
  obind (pLit "Samples:".data s) fun s1 =>
  obind (pDigits1 (pWs s1)) fun n1 =>
  obind (pLit "(Total:".data (pWs n1.2)) fun s2 =>
  obind (pDigits1 (pWs s2)) fun n2 =>
  obind (pChar ')' n2.2) fun s3 =>
  obind (pWsNl s3) fun s4 =>
  some ((n1.1, n2.1), s4)

/-- Anchored chunk `LBL\s*([\d.]+)\s*ms\s*\n` for `LBL ∈ {P50:, P95:, P99:}`. -/
def stepPercentile (label : List Char) (s : List Char) :
    Option (List Char × List Char) :=
  obind (pLit label s) fun s1 =>
  obind (pFloatTokChars (pWs s1)) fun tok =>
  obind (pLit "ms".data (pWs tok.2)) fun s2 =>
  obind (pWsNl s2) fun s3 =>
  some (tok.1, s3)

/-- The status token chars: pass glyph, warning glyph (two code points:
U+26A0 U+FE0F), or the literal word. -/
def passTok : List Char := ['✓']
def warnTok : List Char := ['⚠', '️']
def wordWarnTok : List Char := "WARNING".data

/-- Anchored alternation `(✓|⚠️|WARNING)`, alternatives tried in pattern
order, the matched token captured (group 7). -/
def pStatus (s : List Char) : Option (List Char × List Char) :=
  match pLit passTok s with
  | some r => some (passTok, r)
  | none =>
    match pLit warnTok s with
    | some r => some (warnTok, r)
    | none =>
      match pLit wordWarnTok s with
      | some r => some (wordWarnTok, r)
      | none => none

/-- The tuple of captured groups of one match. -/
structure RawMatch where
  timestamp : List Char
  samplesTok : List Char
  totalTok : List Char
  p50Tok : List Char
  p95Tok : List Char
  p99Tok : List Char
  statusTok : List Char
deriving DecidableEq, Repr

/-- Attempt the whole pattern anchored at the head of `s`; on success
return the captures and the suffix after the match end. -/
def matchBlockAt (s : List Char) : Option (RawMatch × List Char) :=
  obind (pTimestamp s) fun ts =>
  obind (scanFor stepHeader ts.2) fun hd =>
  obind (scanFor stepSamples hd.2) fun ns =>
  obind (scanFor (stepPercentile "P50:".data) ns.2) fun t50 =>
  obind (scanFor (stepPercentile "P95:".data) t50.2) fun t95 =>
  obind (scanFor (stepPercentile "P99:".data) t95.2) fun t99 =>
  obind (scanFor pStatus t99.2) fun st =>
  some (⟨ts.1, ns.1.1, ns.1.2, t50.1, t95.1, t99.1, st.1⟩, st.2)

/-- `re.findall`: scan left to right; at each position try a match; on
success record the captures and resume after the match end (matches never
overlap and are never empty).  Fuel-driven for structural recursion;
`findAllAux_fuel_irrelevant` below shows any fuel ≥ the input length gives
the same result. -/
def findAllAux : Nat → List Char → List RawMatch
  | 0, _ => []
  | _ + 1, [] => []
  | fuel + 1, c :: rest =>
    match matchBlockAt (c :: rest) with
    | some (g, r) => g :: findAllAux fuel r
    | none => findAllAux fuel rest

/-- `pattern.findall(content)`. -/
def findAll (s : List Char) : List RawMatch := findAllAux s.length s

/-- Python `int()` on a captured digit string. -/
def parseNat (ds : List Char) : Nat :=
  ds.foldl (fun a c => 10 * a + (c.toNat - 48)) 0

/-- Python `float()` on a token matched by `[\d.]+`: accepted iff it has at
most one dot and at least one digit; `none` models the `ValueError` raised
otherwise (e.g. on `"1.2.3"` or `"."`). -/
def parseFloatTok (tok : List Char) : Option ℚ :=
  if tok.count '.' = 0 then some (parseNat tok : ℚ)
  else if tok.count '.' = 1 ∧ 2 ≤ tok.length then
    let ip := tok.takeWhile (· ≠ '.')
    let fp := (tok.dropWhile (· ≠ '.')).tail
    some ((parseNat ip : ℚ) + (parseNat fp : ℚ) / (10 : ℚ) ^ fp.length)
  else none

/-- Python `.strip()` on the captured timestamp (trims surrounding
whitespace; the capture starts and ends with a digit so this is an
identity in practice, kept for fidelity). -/
def stripWs (l : List Char) : List Char :=
  ((l.dropWhile isWs).reverse.dropWhile isWs).reverse

/-- Build one `LatencySample` from a match tuple (loop body, lines 75–86);
`none` models the `ValueError` a `float()` conversion can raise. -/
def mkSample (g : RawMatch) : Option LatencySample :=
  obind (parseFloatTok g.p50Tok) fun p50 =>
  obind (parseFloatTok g.p95Tok) fun p95 =>
  obind (parseFloatTok g.p99Tok) fun p99 =>
  some { timestamp := String.mk (stripWs g.timestamp),
         sample_count := parseNat g.samplesTok,
         total_samples := parseNat g.totalTok,
         p50_ms := p50, p95_ms := p95, p99_ms := p99,
         meets_requirement := g.statusTok == passTok }

/-- The sample-building loop (lines 75–86): stops at the first failing
conversion (`none` = the exception propagates out of `parse_logs`). -/
def buildSamples : List RawMatch → Option (List LatencySample)
  | [] => some []
  | g :: gs =>
    obind (mkSample g) fun s =>
    obind (buildSamples gs) fun rest =>
    some (s :: rest)

/-- `parse_logs` applied to the file content: extract all matches and
convert them in order.  `some samples` is a normal return (Python then
returns `len(samples) > 0`); `none` is an uncaught conversion exception. -/
def parse_logs (content : String) : Option (List LatencySample) :=
  buildSamples (findAll content.data)

/-- `main` (lines 275–294): exit 1 when `parse_logs` found nothing (or the
process died on an exception, which also exits non-zero); otherwise exit 0
iff the literal `"✓ PASS"` occurs anywhere in the rendered report. -/
def mainExitCode (content : String) (fname : String) (detailed : Bool) : Nat :=
  match parse_logs content with
  | none => 1
  | some [] => 1
  | some samples =>
    if strContains (generate_report samples fname detailed) "✓ PASS" then 0 else 1

/-! ## Concrete inputs used by counterexamples and witnesses -/

/-- A well-formed log with one block whose session total (100) is far below
the 3600-sample minimum; the block itself passes its window check. -/
def logC1 : String :=
  "01-13 14:30:00.123 I/App [LatencyService] Latency Statistics:\n" ++
  "01-13 14:30:00.124   Samples: 10 (Total: 100)\n" ++
  "01-13 14:30:00.125   P50: 50 ms\n" ++
  "01-13 14:30:00.126   P95: 50 ms\n" ++
  "01-13 14:30:00.127   P99: 50 ms\n" ++
  "01-13 14:30:00.128   ✓ P95 latency meets <100ms requirement\n"

/-- The sample extracted from `logC1`. -/
def sC1 : LatencySample :=
  { timestamp := "01-13 14:30:00.123", sample_count := 10, total_samples := 100,
    p50_ms := ((50 : ℕ) : ℚ), p95_ms := ((50 : ℕ) : ℚ), p99_ms := ((50 : ℕ) : ℚ),
    meets_requirement := true }

/-- A log whose single block matches the full pattern but carries the
percentile token `1.2.3`, on which Python's `float()` raises. -/
def badLog : String :=
  "01-13 14:30:00.123 I/App [LatencyService] Latency Statistics:\n" ++
  "01-13 14:30:00.124   Samples: 10 (Total: 100)\n" ++
  "01-13 14:30:00.125   P50: 1.2.3 ms\n" ++
  "01-13 14:30:00.126   P95: 78.91 ms\n" ++
  "01-13 14:30:00.127   P99: 92.45 ms\n" ++
  "01-13 14:30:00.128   ✓ P95 latency meets <100ms requirement\n"

/-- A log with two well-formed blocks (one pass, one warning) separated by
an unrelated line. -/
def goodLog : String :=
  logC1 ++ "unrelated noise line\n" ++
  "01-13 14:31:00.123 I/App [LatencyService] Latency Statistics:\n" ++
  "01-13 14:31:00.124   Samples: 20 (Total: 3700)\n" ++
  "01-13 14:31:00.125   P50: 90 ms\n" ++
  "01-13 14:31:00.126   P95: 120 ms\n" ++
  "01-13 14:31:00.127   P99: 150 ms\n" ++
  "01-13 14:31:00.128   ⚠️ WARNING: P95 latency 120ms exceeds requirement\n"

/-- The second (warning) match of `goodLog`. -/
def gWarn : RawMatch :=
  { timestamp := "01-13 14:31:00.123".data, samplesTok := "20".data,
    totalTok := "3700".data, p50Tok := "90".data, p95Tok := "120".data,
    p99Tok := "150".data, statusTok := warnTok }

/-- The sample built from `gWarn`. -/
def sWarn : LatencySample :=
  { timestamp := "01-13 14:31:00.123", sample_count := 20, total_samples := 3700,
    p50_ms := ((90 : ℕ) : ℚ), p95_ms := ((120 : ℕ) : ℚ), p99_ms := ((150 : ℕ) : ℚ),
    meets_requirement := false }

/-- Two sample sequences that render identical validation-results sections
while disagreeing on the average-P95 rule: `cexA` has P95 values 0 and 100
(average 50, rule passes), `cexB` has 100 and 100 (average 100, rule
fails); both have two failing windows, peak exactly 100 and total 5000. -/
def cexA : List LatencySample :=
  [{ timestamp := "t", sample_count := 1, total_samples := 5000,
     p50_ms := 0, p95_ms := 0, p99_ms := 0, meets_requirement := false },
   { timestamp := "t", sample_count := 1, total_samples := 5000,
     p50_ms := 0, p95_ms := 100, p99_ms := 0, meets_requirement := false }]

def cexB : List LatencySample :=
  [{ timestamp := "t", sample_count := 1, total_samples := 5000,
     p50_ms := 0, p95_ms := 100, p99_ms := 0, meets_requirement := false },
   { timestamp := "t", sample_count := 1, total_samples := 5000,
     p50_ms := 0, p95_ms := 100, p99_ms := 0, meets_requirement := false }]

/-- One passing window with a session total below the volume threshold. -/
def c2Demo : List LatencySample :=
  [{ timestamp := "t", sample_count := 10, total_samples := 100,
     p50_ms := 50, p95_ms := 50, p99_ms := 50, meets_requirement := true }]

/-- Two samples whose last `total_samples` (30) differs from both the sum
of `total_samples` fields (40) and the sum of `sample_count` fields (16). -/
def c5Demo : List LatencySample :=
  [{ timestamp := "a", sample_count := 7, total_samples := 10,
     p50_ms := 1, p95_ms := 2, p99_ms := 3, meets_requirement := true },
   { timestamp := "b", sample_count := 9, total_samples := 30,
     p50_ms := 4, p95_ms := 5, p99_ms := 6, meets_requirement := true }]

/-- A sequence whose maximum P95 is exactly 100. -/
def c10Demo : List LatencySample :=
  [{ timestamp := "t", sample_count := 10, total_samples := 5000,
     p50_ms := 50, p95_ms := 100, p99_ms := 120, meets_requirement := true }]

/-- Two integral-valued samples for the CSV witness. -/
def csvDemo : List LatencySample :=
  [{ timestamp := "t1", sample_count := 1, total_samples := 2,
     p50_ms := 3, p95_ms := 4, p99_ms := 5, meets_requirement := true },
   { timestamp := "t2", sample_count := 6, total_samples := 7,
     p50_ms := 8, p95_ms := 9, p99_ms := 10, meets_requirement := false }]

/-- A five-element P95 sequence on which the trend computation's late
slice (last ⌈5/3⌉ = 2 values, summed, divided by ⌊5/3⌋ = 1) diverges from
the mean of the last ⌊5/3⌋ = 1 values. -/
def c3Demo : List ℚ := [10, 10, 10, 50, 2]

/-- A one-element P95 sequence for the no-trend witness. -/
def ps1 : List ℚ := [1]

/-! ## Helper lemmas: substring containment -/

theorem containsSub_nil (t : List Char) : containsSub [] t = true := by
  cases t <;> simp [containsSub, leadsWith]

theorem leadsWith_append {p l : List Char} (t : List Char)
    (h : leadsWith p l = true) : leadsWith p (l ++ t) = true := by
  induction p generalizing l with
  | nil => rfl
  | cons a as ih =>
    cases l with
    | nil => simp [leadsWith] at h
    | cons c cs =>
      simp only [leadsWith, List.cons_append, Bool.and_eq_true, beq_iff_eq] at h ⊢
      exact ⟨h.1, ih h.2⟩

theorem containsSub_append_right {pat t : List Char} (l : List Char)
    (h : containsSub pat t = true) : containsSub pat (l ++ t) = true := by
  induction l with
  | nil => simpa using h
  | cons c cs ih =>
    simp only [List.cons_append, containsSub, Bool.or_eq_true]
    exact Or.inr ih

theorem containsSub_append_left {pat l : List Char} (t : List Char)
    (h : containsSub pat l = true) : containsSub pat (l ++ t) = true := by
  induction l with
  | nil =>
    cases pat with
    | nil => exact containsSub_nil t
    | cons a as => simp [containsSub, leadsWith] at h
  | cons c cs ih =>
    simp only [containsSub, Bool.or_eq_true] at h
    simp only [List.cons_append, containsSub, Bool.or_eq_true]
    rcases h with h | h
    · exact Or.inl (by simpa using leadsWith_append t h)
    · exact Or.inr (ih h)

theorem strContains_append_left {a pat : String} (b : String)
    (h : strContains a pat = true) : strContains (a ++ b) pat = true := by
  unfold strContains at h ⊢
  rw [String.data_append]
  exact containsSub_append_left _ h

theorem strContains_append_right {b pat : String} (a : String)
    (h : strContains b pat = true) : strContains (a ++ b) pat = true := by
  unfold strContains at h ⊢
  rw [String.data_append]
  exact containsSub_append_right _ h

theorem strContains_foldl_acc {pat : String} (rest : List String) :
    ∀ acc, strContains acc pat = true →
      strContains (rest.foldl (fun a b => a ++ "\n" ++ b) acc) pat = true := by
  induction rest with
  | nil => intro acc h; exact h
  | cons x xs ih =>
    intro acc h
    exact ih _ (strContains_append_left x (strContains_append_left "\n" h))

theorem strContains_foldl_mem {pat : String} :
    ∀ (rest : List String) (acc x : String), x ∈ rest → strContains x pat = true →
      strContains (rest.foldl (fun a b => a ++ "\n" ++ b) acc) pat = true := by
  intro rest
  induction rest with
  | nil => intro acc x hx; cases hx
  | cons y ys ih =>
    intro acc x hx hc
    rcases List.mem_cons.mp hx with rfl | hmem
    · exact strContains_foldl_acc ys _ (strContains_append_right _ hc)
    · exact ih _ x hmem hc

theorem strContains_joinLines {pat x : String} (ls : List String)
    (hx : x ∈ ls) (hc : strContains x pat = true) :
    strContains (joinLines ls) pat = true := by
  cases ls with
  | nil => cases hx
  | cons y ys =>
    rcases List.mem_cons.mp hx with rfl | hmem
    · exact strContains_foldl_acc ys x hc
    · exact strContains_foldl_mem ys y x hmem hc

/-! ## Helper lemmas: the scanner consumes input

Every parser returns a suffix no longer than its input, and a whole match
consumes at least one character; hence the fuel `s.length` used by
`findAll` is always sufficient (`findAllAux_fuel_irrelevant`). -/

theorem obind_eq_some {α β : Type} {o : Option α} {f : α → Option β} {b : β} :
    obind o f = some b ↔ ∃ a, o = some a ∧ f a = some b := by
  cases o <;> simp [obind]

theorem dropWhile_length_le (p : Char → Bool) (s : List Char) :
    (s.dropWhile p).length ≤ s.length :=
  (List.dropWhile_sublist p).length_le

theorem pChar_length {c : Char} {s r : List Char} (h : pChar c s = some r) :
    r.length < s.length := by
  cases s with
  | nil => simp [pChar] at h
  | cons x rest =>
    simp only [pChar] at h
    by_cases hx : x = c
    · rw [if_pos hx] at h
      cases h
      simp
    · rw [if_neg hx] at h
      cases h

theorem pLit_length {l s r : List Char} (h : pLit l s = some r) :
    r.length ≤ s.length := by
  induction l generalizing s with
  | nil => unfold pLit at h; cases h; exact le_rfl
  | cons a as ih =>
    cases s with
    | nil => unfold pLit at h; cases h
    | cons x rest =>
      unfold pLit at h
      split at h
      · have := ih h; simp only [List.length_cons]; omega
      · cases h

theorem pTwoDigits_length {s : List Char} {x : Char × Char} {r : List Char}
    (h : pTwoDigits s = some (x, r)) : r.length + 2 = s.length := by
  match s with
  | [] => simp [pTwoDigits] at h
  | [a] => simp [pTwoDigits] at h
  | a :: b :: rest =>
    simp only [pTwoDigits] at h
    by_cases hd : (a.isDigit && b.isDigit) = true
    · rw [if_pos hd] at h
      simp only [Option.some.injEq, Prod.mk.injEq] at h
      rw [← h.2]; simp
    · rw [if_neg hd] at h
      cases h

theorem pDigits1_length {s ds r : List Char} (h : pDigits1 s = some (ds, r)) :
    r.length ≤ s.length := by
  unfold pDigits1 at h
  split at h
  · cases h
  · simp only [Option.some.injEq, Prod.mk.injEq] at h
    rw [← h.2]; exact dropWhile_length_le _ s

theorem pFloatTokChars_length {s ds r : List Char}
    (h : pFloatTokChars s = some (ds, r)) : r.length ≤ s.length := by
  unfold pFloatTokChars at h
  split at h
  · cases h
  · simp only [Option.some.injEq, Prod.mk.injEq] at h
    rw [← h.2]; exact dropWhile_length_le _ s

theorem pWs1_length {s w r : List Char} (h : pWs1 s = some (w, r)) :
    r.length ≤ s.length := by
  unfold pWs1 at h
  split at h
  · cases h
  · simp only [Option.some.injEq, Prod.mk.injEq] at h
    rw [← h.2]; exact dropWhile_length_le _ s

theorem pWs_length (s : List Char) : (pWs s).length ≤ s.length :=
  dropWhile_length_le _ s

theorem pWsNl_length {s r : List Char} (h : pWsNl s = some r) :
    r.length ≤ s.length :=
  le_trans (le_of_lt (pChar_length h)) (dropWhile_length_le _ s)

theorem pTimestamp_length {s ts r : List Char}
    (h : pTimestamp s = some (ts, r)) : r.length < s.length := by
  simp only [pTimestamp, obind_eq_some] at h
  obtain ⟨d1, h1, s1, h2, d2, h3, w, h4, d3, h5, s2, h6, d4, h7,
    s3, h8, d5, h9, s4, h10, ds, h11, hfin⟩ := h
  simp only [Option.some.injEq, Prod.mk.injEq] at hfin
  have e1 := pTwoDigits_length h1
  have e2 := pChar_length h2
  have e3 := pTwoDigits_length h3
  have e4 := pWs1_length h4
  have e5 := pTwoDigits_length h5
  have e6 := pChar_length h6
  have e7 := pTwoDigits_length h7
  have e8 := pChar_length h8
  have e9 := pTwoDigits_length h9
  have e10 := pChar_length h10
  have e11 := pDigits1_length h11
  obtain ⟨-, hr⟩ := hfin
  subst hr
  omega

theorem scanFor_length {α : Type}
    {step : List Char → Option (α × List Char)}
    (hstep : ∀ s a r, step s = some (a, r) → r.length ≤ s.length) :
    ∀ {s : List Char} {a : α} {r : List Char},
      scanFor step s = some (a, r) → r.length ≤ s.length := by
  intro s
  induction s with
  | nil => intro a r h; exact hstep [] a r h
  | cons c rest ih =>
    intro a r h
    unfold scanFor at h
    cases hs : step (c :: rest) with
    | some v =>
      rw [hs] at h
      have hv : v = (a, r) := Option.some.inj h
      rw [hv] at hs
      exact hstep _ _ _ hs
    | none =>
      rw [hs] at h
      have := ih h
      simp only [List.length_cons]
      omega

theorem stepHeader_length : ∀ (s : List Char) (a : Unit) (r : List Char),
    stepHeader s = some (a, r) → r.length ≤ s.length := by
  intro s a r h
  simp only [stepHeader, obind_eq_some] at h
  obtain ⟨s1, h1, s2, h2, hfin⟩ := h
  simp only [Option.some.injEq, Prod.mk.injEq] at hfin
  have e1 := pLit_length h1
  have e2 := pWsNl_length h2
  obtain ⟨-, hr⟩ := hfin
  subst hr
  omega

theorem stepSamples_length : ∀ (s : List Char) (a : List Char × List Char)
    (r : List Char), stepSamples s = some (a, r) → r.length ≤ s.length := by
  intro s a r h
  simp only [stepSamples, obind_eq_some] at h
  obtain ⟨s1, h1, n1, h2, s2, h3, n2, h4, s3, h5, s4, h6, hfin⟩ := h
  simp only [Option.some.injEq, Prod.mk.injEq] at hfin
  have e1 := pLit_length h1
  have e2 := pDigits1_length h2
  have e2b := pWs_length s1
  have e3 := pLit_length h3
  have e3b := pWs_length n1.2
  have e4 := pDigits1_length h4
  have e4b := pWs_length s2
  have e5 := pChar_length h5
  have e6 := pWsNl_length h6
  obtain ⟨-, hr⟩ := hfin
  subst hr
  omega

theorem stepPercentile_length (label : List Char) :
    ∀ (s : List Char) (a : List Char) (r : List Char),
      stepPercentile label s = some (a, r) → r.length ≤ s.length := by
  intro s a r h
  simp only [stepPercentile, obind_eq_some] at h
  obtain ⟨s1, h1, tok, h2, s2, h3, s3, h4, hfin⟩ := h
  simp only [Option.some.injEq, Prod.mk.injEq] at hfin
  have e1 := pLit_length h1
  have e2 := pFloatTokChars_length h2
  have e2b := pWs_length s1
  have e3 := pLit_length h3
  have e3b := pWs_length tok.2
  have e4 := pWsNl_length h4
  obtain ⟨-, hr⟩ := hfin
  subst hr
  omega

theorem pStatus_length : ∀ (s : List Char) (a : List Char) (r : List Char),
    pStatus s = some (a, r) → r.length ≤ s.length := by
  intro s a r h
  unfold pStatus at h
  split at h
  · simp only [Option.some.injEq, Prod.mk.injEq] at h
    exact h.2 ▸ pLit_length (by assumption)
  · split at h
    · simp only [Option.some.injEq, Prod.mk.injEq] at h
      exact h.2 ▸ pLit_length (by assumption)
    · split at h
      · simp only [Option.some.injEq, Prod.mk.injEq] at h
        exact h.2 ▸ pLit_length (by assumption)
      · cases h

theorem matchBlockAt_length {s : List Char} {g : RawMatch} {r : List Char}
    (h : matchBlockAt s = some (g, r)) : r.length < s.length := by
  simp only [matchBlockAt, obind_eq_some] at h
  obtain ⟨ts, h1, hd, h2, ns, h3, t50, h4, t95, h5, t99, h6, st, h7, hfin⟩ := h
  simp only [Option.some.injEq, Prod.mk.injEq] at hfin
  have e1 := pTimestamp_length h1
  have e2 := scanFor_length stepHeader_length h2
  have e3 := scanFor_length stepSamples_length h3
  have e4 := scanFor_length (stepPercentile_length _) h4
  have e5 := scanFor_length (stepPercentile_length _) h5
  have e6 := scanFor_length (stepPercentile_length _) h6
  have e7 := scanFor_length pStatus_length h7
  obtain ⟨-, hr⟩ := hfin
  subst hr
  omega

theorem findAllAux_fuel : ∀ (f1 f2 : Nat) (s : List Char),
    s.length ≤ f1 → s.length ≤ f2 → findAllAux f1 s = findAllAux f2 s := by
  intro f1
  induction f1 with
  | zero =>
    intro f2 s h1 _
    have : s = [] := List.eq_nil_of_length_eq_zero (Nat.le_zero.mp h1)
    subst this
    cases f2 <;> rfl
  | succ f ih =>
    intro f2 s h1 h2
    cases s with
    | nil => cases f2 <;> rfl
    | cons c rest =>
      cases f2 with
      | zero => simp at h2
      | succ f2' =>
        simp only [findAllAux]
        cases hm : matchBlockAt (c :: rest) with
        | none =>
          simp only [List.length_cons] at h1 h2
          exact ih f2' rest (by omega) (by omega)
        | some gr =>
          obtain ⟨g, r⟩ := gr
          have hlt := matchBlockAt_length hm
          simp only [List.length_cons] at h1 h2 hlt
          show g :: findAllAux f r = g :: findAllAux f2' r
          rw [ih f2' r (by omega) (by omega)]

/-- The fuel `s.length` used by `findAll` is sufficient: any larger fuel
yields the same match list, so `findAll` models unbounded `re.findall`. -/
theorem findAll_fuel_irrelevant (s : List Char) (fuel : Nat)
    (h : s.length ≤ fuel) : findAllAux fuel s = findAll s :=
  findAllAux_fuel fuel s.length s h le_rfl

/-! ## Helper lemmas: status tokens and sample construction -/

theorem scanFor_exists {α : Type} {step : List Char → Option (α × List Char)}
    {s : List Char} {a : α} {r : List Char}
    (h : scanFor step s = some (a, r)) : ∃ s₀, step s₀ = some (a, r) := by
  induction s with
  | nil => exact ⟨[], h⟩
  | cons c rest ih =>
    unfold scanFor at h
    cases hs : step (c :: rest) with
    | some v =>
      rw [hs] at h
      exact ⟨c :: rest, by rw [hs, Option.some.inj h]⟩
    | none =>
      rw [hs] at h
      exact ih h

theorem pStatus_cases {s st r : List Char} (h : pStatus s = some (st, r)) :
    st = passTok ∨ st = warnTok ∨ st = wordWarnTok := by
  unfold pStatus at h
  cases h1 : pLit passTok s with
  | some r1 =>
    rw [h1] at h
    exact Or.inl (Prod.mk.injEq .. ▸ Option.some.inj h).1.symm
  | none =>
    rw [h1] at h
    cases h2 : pLit warnTok s with
    | some r2 =>
      rw [h2] at h
      exact Or.inr (Or.inl (Prod.mk.injEq .. ▸ Option.some.inj h).1.symm)
    | none =>
      rw [h2] at h
      cases h3 : pLit wordWarnTok s with
      | some r3 =>
        rw [h3] at h
        exact Or.inr (Or.inr (Prod.mk.injEq .. ▸ Option.some.inj h).1.symm)
      | none => rw [h3] at h; cases h

theorem matchBlockAt_status {s : List Char} {g : RawMatch} {r : List Char}
    (h : matchBlockAt s = some (g, r)) :
    g.statusTok = passTok ∨ g.statusTok = warnTok ∨ g.statusTok = wordWarnTok := by
  simp only [matchBlockAt, obind_eq_some] at h
  obtain ⟨ts, _, hd, _, ns, _, t50, _, t95, _, t99, _, st, hst, hfin⟩ := h
  obtain ⟨hg, -⟩ := Prod.mk.injEq .. ▸ Option.some.inj hfin
  obtain ⟨s₀, h₀⟩ := scanFor_exists hst
  have := pStatus_cases (by rw [h₀])
  rw [← hg]
  simpa using this

theorem findAllAux_mem {fuel : Nat} {s : List Char} {g : RawMatch}
    (h : g ∈ findAllAux fuel s) :
    ∃ s₀ r, matchBlockAt s₀ = some (g, r) := by
  induction fuel generalizing s with
  | zero => simp [findAllAux] at h
  | succ f ih =>
    cases s with
    | nil => simp [findAllAux] at h
    | cons c rest =>
      simp only [findAllAux] at h
      cases hm : matchBlockAt (c :: rest) with
      | some gr =>
        rw [hm] at h
        obtain ⟨g', r⟩ := gr
        rcases List.mem_cons.mp h with rfl | hmem
        · exact ⟨c :: rest, r, hm⟩
        · exact ih hmem
      | none =>
        rw [hm] at h
        exact ih h

theorem mkSample_meets {g : RawMatch} {s' : LatencySample}
    (h : mkSample g = some s') :
    s'.meets_requirement = (g.statusTok == passTok) := by
  simp only [mkSample, obind_eq_some] at h
  obtain ⟨p50, -, p95, -, p99, -, hfin⟩ := h
  rw [← Option.some.inj hfin]

theorem buildSamples_isSome : ∀ gs : List RawMatch,
    (buildSamples gs).isSome = true ↔ ∀ g ∈ gs, (mkSample g).isSome = true := by
  intro gs
  induction gs with
  | nil => simp [buildSamples]
  | cons g gs ih =>
    cases hm : mkSample g with
    | none => simp [buildSamples, obind, hm]
    | some s =>
      cases hb : buildSamples gs with
      | none =>
        rw [hb] at ih
        simp only [buildSamples, obind, hm, hb]
        simp only [Option.isSome_none, Bool.false_eq_true, false_iff] at ih ⊢
        intro hall
        exact ih fun g' hg' => hall g' (List.mem_cons_of_mem _ hg')
      | some l =>
        rw [hb] at ih
        simp only [buildSamples, obind, hm, hb]
        simp only [Option.isSome_some, true_iff] at ih
        simp only [Option.isSome_some, true_iff, List.mem_cons]
        rintro g' (rfl | hg')
        · simp [hm]
        · exact ih g' hg'

theorem buildSamples_length : ∀ {gs : List RawMatch} {l : List LatencySample},
    buildSamples gs = some l → l.length = gs.length := by
  intro gs
  induction gs with
  | nil =>
    intro l h
    cases Option.some.inj h
    rfl
  | cons g gs ih =>
    intro l h
    simp only [buildSamples, obind_eq_some] at h
    obtain ⟨s, -, rest, hrest, hfin⟩ := h
    rw [← Option.some.inj hfin]
    simp [ih hrest]

theorem buildSamples_map : ∀ {gs : List RawMatch} {l : List LatencySample},
    buildSamples gs = some l → gs.map mkSample = l.map some := by
  intro gs
  induction gs with
  | nil =>
    intro l h
    cases Option.some.inj h
    rfl
  | cons g gs ih =>
    intro l h
    simp only [buildSamples, obind_eq_some] at h
    obtain ⟨s, hs, rest, hrest, hfin⟩ := h
    rw [← Option.some.inj hfin]
    simp only [List.map_cons]
    rw [hs, ih hrest]

/-! ## Helper lemmas: string append algebra and CSV accumulation -/

theorem strAppend_assoc (a b c : String) : (a ++ b) ++ c = a ++ (b ++ c) := by
  apply String.ext
  simp [String.data_append]

theorem strAppend_empty (a : String) : a ++ "" = a := by
  apply String.ext
  simp [String.data_append]

theorem csv_foldl (l : List LatencySample) : ∀ acc : String,
    l.foldl (fun a s => a ++ csvRow s) acc
      = acc ++ (l.map csvRow).foldr (· ++ ·) "" := by
  induction l with
  | nil => intro acc; simp [strAppend_empty]
  | cons x xs ih =>
    intro acc
    simp only [List.foldl_cons, List.map_cons, List.foldr_cons]
    rw [ih, strAppend_assoc]

/-! ## Helper lemmas: validation gate short-circuits -/

theorem validation_passed_false_of_total {samples : List LatencySample}
    (h : total_samples_agg samples < 3600) :
    validation_passed samples = false := by
  unfold validation_passed
  rw [decide_eq_false (by omega : ¬ 3600 ≤ total_samples_agg samples)]
  exact Bool.and_false _

theorem validation_passed_false_of_max {samples : List LatencySample}
    (h : ¬ maxP95 samples < 100) : validation_passed samples = false := by
  unfold validation_passed
  rw [decide_eq_false h]
  simp

theorem validation_passed_iff (samples : List LatencySample) :
    validation_passed samples = true ↔
      failing_windows samples = 0 ∧ maxP95 samples < 100 ∧ avgP95 samples < 100
        ∧ 3600 ≤ total_samples_agg samples := by
  unfold validation_passed
  simp [Bool.and_eq_true, decide_eq_true_eq, and_assoc]

/-! ## Formatting evaluation helpers -/

theorem fmtFixed_100 : fmtFixed 2 (100 : ℚ) = "100.00" := by
  have h : scaledRound 2 (100 : ℚ) = 10000 := by
    norm_num [scaledRound, round_eq]
  unfold fmtFixed
  rw [h]
  decide

/-! ## Claims -/

/-- C2: for every non-empty sample sequence, overall validation is PASS iff
all four rules hold (`failing_windows == 0`, `max(P95) < 100`,
`avg(P95) < 100`, `total_samples ≥ 3600`), and violating any single rule
forces the overall result to FAIL. -/
theorem c2_conjunctive_gate (samples : List LatencySample) (h : samples ≠ []) :
    (validation_passed samples = true ↔
      failing_windows samples = 0 ∧ maxP95 samples < 100 ∧ avgP95 samples < 100
        ∧ 3600 ≤ total_samples_agg samples)
    ∧ (failing_windows samples ≠ 0 → validation_passed samples = false)
    ∧ (¬ maxP95 samples < 100 → validation_passed samples = false)
    ∧ (¬ avgP95 samples < 100 → validation_passed samples = false)
    ∧ (total_samples_agg samples < 3600 → validation_passed samples = false) := by
  refine ⟨validation_passed_iff samples, ?_, ?_, ?_, ?_⟩ <;> intro hv
  · cases hvp : validation_passed samples with
    | false => rfl
    | true => exact absurd ((validation_passed_iff samples).mp hvp).1 hv
  · cases hvp : validation_passed samples with
    | false => rfl
    | true => exact absurd ((validation_passed_iff samples).mp hvp).2.1 hv
  · cases hvp : validation_passed samples with
    | false => rfl
    | true => exact absurd ((validation_passed_iff samples).mp hvp).2.2.1 hv
  · cases hvp : validation_passed samples with
    | false => rfl
    | true =>
      have := ((validation_passed_iff samples).mp hvp).2.2.2
      omega

/-- Witness for C2 at a concrete run: one passing window with session total
100 (< 3600) makes overall validation FAIL. -/
theorem c2_conjunctive_gate_witness :
    c2Demo ≠ [] ∧ validation_passed c2Demo = false :=
  ⟨by simp [c2Demo],
   (c2_conjunctive_gate c2Demo (by simp [c2Demo])).2.2.2.2 (by decide)⟩

/-- C3 is violated by the code: at the P95 sequence `[10, 10, 10, 50, 2]`
the program's trend computation sums the last `⌈5/3⌉ = 2` values and
divides by `5 // 3 = 1` (the slice index `-len(p95_values)//3` parses as
`(-len)//3 = -⌈len/3⌉`), giving `late_avg = 52 > 10 × 1.2`, so the warning
fires — while the arithmetic mean of the last `5 // 3 = 1` values is 2, so
under the claim's reading (`late_avg` = mean of the last `n // 3` values)
the warning must not fire. -/
theorem c3_code_bug :
    trend_warning c3Demo ≠ []
    ∧ ¬ (meanQ (c3Demo.drop (c3Demo.length - c3Demo.length / 3))
          > meanQ (c3Demo.take (c3Demo.length / 3)) * 1.2) := by
  constructor
  · have hlen5 : 5 ≤ c3Demo.length := by decide
    have hdrop : pySliceFrom (Int.fdiv (-(c3Demo.length : ℤ)) 3) c3Demo
        = [(50 : ℚ), 2] := by decide
    have htake : c3Demo.take (c3Demo.length / 3) = [(10 : ℚ)] := by decide
    have hcast : ((c3Demo.length / 3 : ℕ) : ℚ) = 1 := by decide
    have hcond : ([(50 : ℚ), 2].sum / 1 > [(10 : ℚ)].sum / 1 * 1.2) := by
      norm_num [List.sum_cons, List.sum_nil]
    simp only [trend_warning, if_pos hlen5, hdrop, htake, hcast, if_pos hcond]
    simp
  · have hd2 : c3Demo.drop (c3Demo.length - c3Demo.length / 3) = [(2 : ℚ)] := by
      decide
    have ht2 : c3Demo.take (c3Demo.length / 3) = [(10 : ℚ)] := by decide
    rw [hd2, ht2]
    norm_num [meanQ, List.sum_cons, List.sum_nil, List.length_cons, List.length_nil]

/-- C5: the aggregated `total_samples` is the `total_samples` field of the
last sample; on the concrete `c5Demo` it differs from both the sum of the
`total_samples` fields and the sum of the `sample_count` fields, so it is
not computed as either sum. -/
theorem c5_total_is_last :
    (∀ (samples : List LatencySample) (h : samples ≠ []),
      total_samples_agg samples = (samples.getLast h).total_samples)
    ∧ total_samples_agg c5Demo ≠ (c5Demo.map (·.total_samples)).sum
    ∧ total_samples_agg c5Demo ≠ (c5Demo.map (·.sample_count)).sum := by
  refine ⟨?_, by decide, by decide⟩
  intro samples h
  unfold total_samples_agg
  rw [List.getLast?_eq_getLast samples h]

/-- Witness for C5 at the concrete two-sample sequence. -/
theorem c5_total_is_last_witness :
    total_samples_agg c5Demo = (c5Demo.getLast (by simp [c5Demo])).total_samples :=
  c5_total_is_last.1 c5Demo (by simp [c5Demo])

/-- C9: a P95 sequence with fewer than 5 entries never produces the
increasing-trend warning, whatever its values. -/
theorem c9_no_trend_below_five (ps : List ℚ) (h : ps.length < 5) :
    trend_warning ps = [] := by
  unfold trend_warning
  rw [if_neg (by omega)]

/-- Witness for C9 at the one-element sequence. -/
theorem c9_no_trend_below_five_witness :
    ps1.length < 5 ∧ trend_warning ps1 = [] :=
  ⟨by decide, c9_no_trend_below_five ps1 (by decide)⟩

/-- C10: when the maximum P95 equals exactly 100, overall validation FAILs
(the peak rule demands strictly less than 100), while the warning emitted
is the soft "close to threshold" one, not the hard "exceeded" one (which
demands strictly more than 100). -/
theorem c10_boundary_100 (samples : List LatencySample) (h : samples ≠ [])
    (hmax : maxP95 samples = 100) :
    validation_passed samples = false
    ∧ p95MaxWarning (maxP95 samples)
        = ["⚠️  P95 close to threshold (max: 100.00ms)"] := by
  constructor
  · exact validation_passed_false_of_max (by rw [hmax]; exact lt_irrefl _)
  · rw [hmax]
    unfold p95MaxWarning
    rw [if_neg (by norm_num), if_pos (by norm_num), fmtFixed_100]
    decide

/-- Witness for C10 at a concrete one-sample sequence with P95 = 100. -/
theorem c10_boundary_100_witness :
    validation_passed c10Demo = false
    ∧ p95MaxWarning (maxP95 c10Demo)
        = ["⚠️  P95 close to threshold (max: 100.00ms)"] :=
  c10_boundary_100 c10Demo (by simp [c10Demo]) rfl

/-- C6: CSV export fails (`none`) on an empty sequence; on a non-empty
sequence it writes the fixed header line followed by one comma-separated
row per sample in sequence order, the boolean field rendered literally as
`True`/`False`. -/
theorem c6_csv_export (samples : List LatencySample) :
    (samples = [] → export_csv samples = none)
    ∧ (samples ≠ [] →
        export_csv samples
          = some (csvHeaderLine ++ "\n" ++ (samples.map csvRow).foldr (· ++ ·) ""))
    ∧ (∀ s : LatencySample, csvRow s
        = s.timestamp ++ "," ++ Nat.repr s.sample_count ++ ","
          ++ Nat.repr s.total_samples ++ "," ++ ratStr s.p50_ms ++ ","
          ++ ratStr s.p95_ms ++ "," ++ ratStr s.p99_ms ++ ","
          ++ (if s.meets_requirement then "True" else "False") ++ "\n") := by
  refine ⟨?_, ?_, ?_⟩
  · intro he; subst he; rfl
  · intro hne
    cases samples with
    | nil => exact absurd rfl hne
    | cons x xs =>
      unfold export_csv
      rw [if_neg (by simp)]
      rw [csv_foldl]
  · intro s
    unfold csvRow pyBoolStr
    rfl

/-- Witness for C6 at the concrete `csvDemo`, including the fully rendered
output text. -/
theorem c6_csv_export_witness :
    export_csv csvDemo
      = some (csvHeaderLine ++ "\n" ++ (csvDemo.map csvRow).foldr (· ++ ·) "")
    ∧ export_csv csvDemo
      = some "timestamp,sample_count,total_samples,p50_ms,p95_ms,p99_ms,meets_requirement\nt1,1,2,3.0,4.0,5.0,True\nt2,6,7,8.0,9.0,10.0,False\n" :=
  ⟨(c6_csv_export csvDemo).2.1 (by simp [csvDemo]), by decide⟩

/-- C7 as stated is refuted: the sequences `cexA` and `cexB` render
identical validation-results sections, yet the average-P95 rule passes on
`cexA` (average 50) and fails on `cexB` (average 100) — so the section
does not show the individual status of the average-P95 rule. -/
theorem c7_counterexample :
    validationLines cexA = validationLines cexB
    ∧ avgP95 cexA < 100 ∧ ¬ avgP95 cexB < 100 := by
  refine ⟨by decide, ?_, ?_⟩
  · show avgList (p95_values cexA) < 100
    simp only [cexA, p95_values, List.map, avgList, List.sum_cons, List.sum_nil,
      List.length]
    norm_num
  · show ¬ avgList (p95_values cexB) < 100
    simp only [cexB, p95_values, List.map, avgList, List.sum_cons, List.sum_nil,
      List.length]
    norm_num

/-- C7 amended: the validation-results section is embedded contiguously in
the report and shows exactly: the peak-P95 rule's pass/fail marker, the
count of failing windows out of total entries (a count, not a marker), the
volume rule's pass/fail marker, and the overall verdict marker; it has no
line for the average-P95 rule. -/
theorem c7_amended (samples : List LatencySample) (h : samples ≠ [])
    (fname : String) :
    (∃ pre post, buildReportLines samples fname false
        = pre ++ validationLines samples ++ post)
    ∧ (validationLines samples).length = 7
    ∧ (strContains ((validationLines samples).getD 1 "") "✓ PASS" = true
        ↔ maxP95 samples < 100)
    ∧ ((validationLines samples).getD 2 ""
        = "  Failing Windows: " ++ Nat.repr (failing_windows samples) ++ " / "
          ++ Nat.repr samples.length)
    ∧ ((validationLines samples).getD 3 ""
        = "  Minimum Sample Count: "
          ++ (if 3600 ≤ total_samples_agg samples then "✓ PASS" else "❌ FAIL")
          ++ " (" ++ commaGroup (total_samples_agg samples) ++ " / 3,600)")
    ∧ (strContains ((validationLines samples).getD 5 "") "✓ PASS" = true
        ↔ validation_passed samples = true) := by
  refine ⟨⟨sessionLines samples fname ++ statLines samples,
           warnSection samples ++ detailSection samples false ++ [bar60], ?_⟩,
          rfl, ?_, rfl, rfl, ?_⟩
  · simp [buildReportLines, List.append_assoc]
  · show strContains ("  P95 < 100ms Requirement: "
        ++ (if maxP95 samples < 100 then "✓ PASS" else "❌ FAIL")) "✓ PASS" = true
      ↔ maxP95 samples < 100
    by_cases hm : maxP95 samples < 100
    · rw [if_pos hm]
      exact ⟨fun _ => hm, fun _ => by decide⟩
    · rw [if_neg hm]
      exact ⟨fun hx => absurd hx (by decide), fun hc => absurd hc hm⟩
  · show strContains ("Overall Validation: "
        ++ (if validation_passed samples then "✓ PASS" else "❌ FAIL")) "✓ PASS" = true
      ↔ validation_passed samples = true
    by_cases hv : validation_passed samples = true
    · rw [if_pos hv]
      exact ⟨fun _ => hv, fun _ => by decide⟩
    · rw [if_neg hv]
      exact ⟨fun hx => absurd hx (by decide), fun hc => absurd hc hv⟩

/-- Witness for the amended C7 at a concrete non-empty sequence. -/
theorem c7_amended_witness : (validationLines c5Demo).length = 7 :=
  (c7_amended c5Demo (by simp [c5Demo]) "log.txt").2.1

/-- C4 as stated is refuted: `badLog`'s single block matches the full
pattern (one match found), yet extraction fails — the `float()` conversion
of the matched token `1.2.3` raises, aborting `parse_logs`. -/
theorem c4_counterexample :
    (findAll badLog.data).length = 1 ∧ parse_logs badLog = none := by
  constructor <;> decide

/-- C4 amended: extraction succeeds iff every matched block's three
percentile tokens convert (blocks that do not match contribute nothing and
cannot cause failure), and on success it returns exactly one record per
matched block: mapping `mkSample` over the match list reproduces the
result record by record, so the i-th record is precisely the conversion of
the i-th matched block. -/
theorem c4_amended (content : String) :
    ((parse_logs content).isSome = true ↔
      ∀ g ∈ findAll content.data, (mkSample g).isSome = true)
    ∧ (∀ l, parse_logs content = some l
        → (findAll content.data).map mkSample = l.map some
          ∧ l.length = (findAll content.data).length) := by
  constructor
  · exact buildSamples_isSome (findAll content.data)
  · intro l hl
    exact ⟨buildSamples_map hl, buildSamples_length hl⟩

/-- Witness for the amended C4: on `goodLog` (two well-formed blocks with
noise in between) extraction succeeds, and its two matches convert exactly
to the two records `sC1` and `sWarn`, in that order. -/
theorem c4_amended_witness :
    (parse_logs goodLog).isSome = true
    ∧ (findAll goodLog.data).map mkSample = [sC1, sWarn].map some :=
  ⟨(c4_amended goodLog).1.mpr (by decide),
   ((c4_amended goodLog).2 [sC1, sWarn] (by decide)).1⟩

/-- C8: every extracted record's `meets_requirement` is true iff the
matched status token is exactly the pass glyph `✓`; the status token of a
match is always one of the pass glyph, the warning glyph, or the literal
word `WARNING` (the latter two yield false). -/
theorem c8_status_token (content : String) (g : RawMatch) (s' : LatencySample)
    (hg : g ∈ findAll content.data) (hs : mkSample g = some s') :
    (s'.meets_requirement = true ↔ g.statusTok = passTok)
    ∧ (g.statusTok = passTok ∨ g.statusTok = warnTok
        ∨ g.statusTok = wordWarnTok) := by
  obtain ⟨s₀, r, hm⟩ := findAllAux_mem hg
  refine ⟨?_, matchBlockAt_status hm⟩
  rw [mkSample_meets hs]
  exact beq_iff_eq

/-- Witness for C8 at the warning-status match of `goodLog`. -/
theorem c8_status_token_witness :
    (sWarn.meets_requirement = true ↔ gWarn.statusTok = passTok)
    ∧ (gWarn.statusTok = passTok ∨ gWarn.statusTok = warnTok
        ∨ gWarn.statusTok = wordWarnTok) :=
  c8_status_token goodLog gWarn sWarn (by decide) (by decide)

/-- C1 is violated by the code: on `logC1` (one well-formed block, session
total 100 < 3600) the overall validation result is FAIL, but the exit-code
check `"✓ PASS" in report` matches the per-rule line
`P95 < 100ms Requirement: ✓ PASS`, so the process exits 0 where the claim
requires 1. -/
theorem c1_exit_code_bug :
    parse_logs logC1 = some [sC1]
    ∧ validation_passed [sC1] = false
    ∧ mainExitCode logC1 "latency_validation.txt" false = 0 := by
  have hp : parse_logs logC1 = some [sC1] := by decide
  have hv : validation_passed [sC1] = false :=
    validation_passed_false_of_total (by decide)
  refine ⟨hp, hv, ?_⟩
  have hmax : maxP95 [sC1] < 100 := by
    show ((50 : ℕ) : ℚ) < 100
    norm_num
  have hline : strContains ("  P95 < 100ms Requirement: "
      ++ (if maxP95 [sC1] < 100 then "✓ PASS" else "❌ FAIL")) "✓ PASS" = true := by
    rw [if_pos hmax]
    decide
  have hvmem : ("  P95 < 100ms Requirement: "
      ++ (if maxP95 [sC1] < 100 then "✓ PASS" else "❌ FAIL"))
      ∈ validationLines [sC1] := by
    unfold validationLines
    exact List.mem_cons_of_mem _ (List.mem_cons_self _ _)
  have hmem : ("  P95 < 100ms Requirement: "
      ++ (if maxP95 [sC1] < 100 then "✓ PASS" else "❌ FAIL"))
      ∈ buildReportLines [sC1] "latency_validation.txt" false := by
    unfold buildReportLines
    exact List.mem_append_left _ (List.mem_append_left _
      (List.mem_append_left _ (List.mem_append_right _ hvmem)))
  have hrep : strContains
      (generate_report [sC1] "latency_validation.txt" false) "✓ PASS" = true := by
    unfold generate_report
    rw [if_neg (by simp)]
    exact strContains_joinLines _ hmem hline
  simp only [mainExitCode, hp]
  rw [if_pos hrep]
